import Mathlib

set_option maxRecDepth 10000
set_option maxHeartbeats 2000000

/-!
Verification of the drawlib 2D canvas engine (Go) against its design
specification. The Go sources are shallowly embedded: `float64` arithmetic
is modelled by exact rational arithmetic (`ℚ`), `math.Sqrt`/`math.Hypot` by
`Rat.sqrt` (exact on perfect squares, which covers every concrete distance
evaluated in the theorems below), Go `int` and the 26.6 fixed-point type
`fixed.Int26_6` by `ℤ`, and fallible operations (errors, runtime panics)
by `Option`/explicit error results. Resource-backed fields of the Go
`Canvas` (the RGBA pixel buffer `im`, the `raster.Rasterizer`, font faces,
paint `Pattern`s and the clear color) are external collaborators per the
spec's scope and are not part of any claim checked here; they are omitted
from the embedded state. Every other field and every embedded function
follows the corresponding Go source line by line.
-/

namespace Drawlib
/-- Model of Go's `int(x)` conversion from `float64`: truncation toward
zero. -/
def goInt (q : ℚ) : ℤ :=
  if 0 ≤ q then ⌊q⌋ else ⌈q⌉

/-- Model of `math.Sqrt` (and via it `math.Hypot`): `Rat.sqrt`, which is
exact whenever the argument is a perfect square of a rational. -/
def goSqrt (q : ℚ) : ℚ :=
  Rat.sqrt q

/-- Source `helper.go` (`Vector`): a 2D point with `float64` fields,
modelled over `ℚ`. -/
structure Vector where
  X : ℚ
  Y : ℚ
deriving DecidableEq, Repr

/-- Source `NewVector(x, y)`. -/
def NewVector (x y : ℚ) : Vector :=
  ⟨x, y⟩

/-- Source `Vector.Distance`: `math.Sqrt(dx*dx + dy*dy)`. -/
def Vector.Distance (v v2 : Vector) : ℚ :=
  goSqrt ((v.X - v2.X) * (v.X - v2.X) + (v.Y - v2.Y) * (v.Y - v2.Y))

/-- Source `Vector.Interpolate`: `(x + (x2-x)*t, y + (y2-y)*t)`. -/
def Vector.Interpolate (v v2 : Vector) (t : ℚ) : Vector :=
  ⟨v.X + (v2.X - v.X) * t, v.Y + (v2.Y - v.Y) * t⟩

/-- Source `Vector.Fixed`: `fixed.Point26_6{X: fixed.I(int(v.X)), Y:
fixed.I(int(v.Y))}`. `fixed.I(i)` is `i << 6`, i.e. `i * 64`; the `int(·)`
conversion truncates toward zero, so both coordinates are whole-pixel
multiples of 64 in 26.6 fixed-point units. -/
def Vector.Fixed (v : Vector) : ℤ × ℤ :=
  (goInt v.X * 64, goInt v.Y * 64)

/-- Source `matrix.go`: a 2×3 affine matrix with `float64` entries,
modelled over `ℚ`. -/
structure Matrix where
  XX : ℚ
  YX : ℚ
  XY : ℚ
  YY : ℚ
  X0 : ℚ
  Y0 : ℚ
deriving DecidableEq, Repr

/-- Source `Identity()`. -/
def Identity : Matrix :=
  ⟨1, 0, 0, 1, 0, 0⟩

/-- Source package-level `Translate(x, y)`. -/
def Translate (x y : ℚ) : Matrix :=
  ⟨1, 0, 0, 1, x, y⟩

/-- Source package-level `Scale(x, y)`. -/
def Scale (x y : ℚ) : Matrix :=
  ⟨x, 0, 0, y, 0, 0⟩

/-- Source package-level `Rotate(angle)`, which builds the matrix
`{c, s, -s, c, 0, 0}` from `c = math.Cos(angle)` and `s = math.Sin(angle)`.
The transcendental evaluations are kept abstract: this model takes the
already-computed cosine and sine as arguments. -/
def RotateCS (c s : ℚ) : Matrix :=
  ⟨c, s, -s, c, 0, 0⟩

/-- Source package-level `Shear(x, y)`. -/
def Shear (x y : ℚ) : Matrix :=
  ⟨1, y, x, 1, 0, 0⟩

/-- Source `Matrix.Multiply`. -/
def Matrix.Multiply (m1 m2 : Matrix) : Matrix :=
  ⟨m1.XX * m2.XX + m1.YX * m2.XY,
   m1.XX * m2.YX + m1.YX * m2.YY,
   m1.XY * m2.XX + m1.YY * m2.XY,
   m1.XY * m2.YX + m1.YY * m2.YY,
   m1.X0 * m2.XX + m1.Y0 * m2.XY + m2.X0,
   m1.X0 * m2.YX + m1.Y0 * m2.YY + m2.Y0⟩

/-- Source `Matrix.TransformPoint`. -/
def Matrix.TransformPoint (m : Matrix) (x y : ℚ) : ℚ × ℚ :=
  (m.XX * x + m.XY * y + m.X0, m.YX * x + m.YY * y + m.Y0)

/-- Source `Matrix.TransformVector` (linear part only). -/
def Matrix.TransformVector (m : Matrix) (x y : ℚ) : ℚ × ℚ :=
  (m.XX * x + m.XY * y, m.YX * x + m.YY * y)

/-- Source method `(m Matrix) Translate`: `Translate(x, y).Multiply(m)`. -/
def Matrix.Translate (m : Matrix) (x y : ℚ) : Matrix :=
  (Drawlib.Translate x y).Multiply m

/-- Source method `(m Matrix) Scale`: `Scale(x, y).Multiply(m)`. -/
def Matrix.Scale (m : Matrix) (x y : ℚ) : Matrix :=
  (Drawlib.Scale x y).Multiply m

/-- Source method `(m Matrix) Rotate`: `Rotate(angle).Multiply(m)`, with
the cosine and sine of the angle passed abstractly. -/
def Matrix.RotateCS (m : Matrix) (c s : ℚ) : Matrix :=
  (Drawlib.RotateCS c s).Multiply m

/-- Source method `(m Matrix) Shear`: `Shear(x, y).Multiply(m)`. -/
def Matrix.Shear (m : Matrix) (x y : ℚ) : Matrix :=
  (Drawlib.Shear x y).Multiply m

/-- Model of `math.Hypot(dx, dy)`: `sqrt(dx² + dy²)`. -/
def goHypot (dx dy : ℚ) : ℚ :=
  goSqrt (dx * dx + dy * dy)

/-- Control-polygon length used by `CreateQuadraticBezier`:
`Hypot(x1-x0, y1-y0) + Hypot(x2-x1, y2-y1)`. -/
def quadLen (x0 y0 x1 y1 x2 y2 : ℚ) : ℚ :=
  goHypot (x1 - x0) (y1 - y0) + goHypot (x2 - x1) (y2 - y1)

/-- Source `CreateQuadraticBezier` point count: `n := int(l + 0.5); if n < 4
{ n = 4 }`. -/
def quadN (x0 y0 x1 y1 x2 y2 : ℚ) : ℤ :=
  let n := goInt (quadLen x0 y0 x1 y1 x2 y2 + 1/2)
  if n < 4 then 4 else n

/-- Loop body of `CreateQuadraticBezier`: the Bernstein evaluation of the
quadratic curve at `t = i / d` where `d = n - 1`. -/
def quadPoint (x0 y0 x1 y1 x2 y2 d : ℚ) (i : ℕ) : Vector :=
  let t := (i : ℚ) / d
  let u := 1 - t
  let a := u * u
  let b := 2 * u * t
  let c := t * t
  ⟨a * x0 + b * x1 + c * x2, a * y0 + b * y1 + c * y2⟩

/-- Source `CreateQuadraticBezier`: `n` points, the `i`-th at parameter
`t = i/(n-1)`. -/
def CreateQuadraticBezier (x0 y0 x1 y1 x2 y2 : ℚ) : List Vector :=
  let n := quadN x0 y0 x1 y1 x2 y2
  let d := (n : ℚ) - 1
  (List.range n.toNat).map (quadPoint x0 y0 x1 y1 x2 y2 d)

/-- Control-polygon length used by `CreateCubicBezier`. -/
def cubicLen (x0 y0 x1 y1 x2 y2 x3 y3 : ℚ) : ℚ :=
  goHypot (x1 - x0) (y1 - y0) + goHypot (x2 - x1) (y2 - y1) +
    goHypot (x3 - x2) (y3 - y2)

/-- Source `CreateCubicBezier` point count: `n := int(l + 0.5); if n < 4
{ n = 4 }`. -/
def cubicN (x0 y0 x1 y1 x2 y2 x3 y3 : ℚ) : ℤ :=
  let n := goInt (cubicLen x0 y0 x1 y1 x2 y2 x3 y3 + 1/2)
  if n < 4 then 4 else n

/-- Loop body of `CreateCubicBezier`: the Bernstein evaluation of the cubic
curve at `t = i / dd` where `dd = n - 1`. -/
def cubicPoint (x0 y0 x1 y1 x2 y2 x3 y3 dd : ℚ) (i : ℕ) : Vector :=
  let t := (i : ℚ) / dd
  let u := 1 - t
  let a := u * u * u
  let b := 3 * u * u * t
  let c := 3 * u * t * t
  let d := t * t * t
  ⟨a * x0 + b * x1 + c * x2 + d * x3, a * y0 + b * y1 + c * y2 + d * y3⟩

/-- Source `CreateCubicBezier`: `n` points, the `i`-th at parameter
`t = i/(n-1)`. -/
def CreateCubicBezier (x0 y0 x1 y1 x2 y2 x3 y3 : ℚ) : List Vector :=
  let n := cubicN x0 y0 x1 y1 x2 y2 x3 y3
  let dd := (n : ℚ) - 1
  (List.range n.toNat).map (cubicPoint x0 y0 x1 y1 x2 y2 x3 y3 dd)

/-- Source `dashPath` inner `for pathIndex < len(path)` loop, with the
remaining points `rest` standing for `path[pathIndex:]`. The loop is not
structurally recursive (a long point pair is cut repeatedly without
advancing `pathIndex`), so recursion is on an explicit fuel; the Go loop
terminates because every cut consumes one dash entry of positive length,
and every theorem below evaluates the loop with ample fuel. When `rest` is
exhausted the source's trailing emission check (`dashIndex%2 == 0 &&
len(segment) > 1`) runs. -/
def dashLoop (dashes : List ℚ) : ℕ → List Vector → Vector → ℕ → ℚ →
    List Vector → List (List Vector) → List (List Vector)
  | 0, _, _, _, _, _, result => result
  | _ + 1, [], _, dashIndex, _, segment, result =>
      if dashIndex % 2 = 0 ∧ 1 < segment.length then result ++ [segment]
      else result
  | fuel + 1, point :: rest, previous, dashIndex, segmentLength, segment, result =>
      let dashLength := dashes.getD dashIndex 0
      let d := previous.Distance point
      let maxd := dashLength - segmentLength
      if maxd < d then
        let t := maxd / d
        let p := previous.Interpolate point t
        let segment2 := segment ++ [p]
        let result2 :=
          if dashIndex % 2 = 0 ∧ 1 < segment2.length then result ++ [segment2]
          else result
        dashLoop dashes fuel (point :: rest) p ((dashIndex + 1) % dashes.length)
          0 [p] result2
      else
        dashLoop dashes fuel rest point dashIndex (segmentLength + d)
          (segment ++ [point]) result

/-- Fuel bound used when running `dashLoop`; far more than any concrete
instance in this file needs. -/
def dashFuel : ℕ := 8

/-- Source `dashPath`: empty pattern is a pass-through; a singleton pattern
`[a]` is normalized to `[a, a]`; paths with fewer than two points are
skipped; each path is walked by `dashLoop` starting at `path[0]` with dash
index 0. -/
def dashPath (paths : List (List Vector)) (dashes : List ℚ) :
    List (List Vector) :=
  if dashes = [] then paths
  else
    let dashes2 := if dashes.length = 1 then dashes ++ dashes else dashes
    paths.foldl
      (fun result path =>
        match path with
        | [] => result
        | [_] => result
        | previous :: rest =>
            dashLoop dashes2 dashFuel rest previous 0 0 [previous] result)
      []

/-- Model of the freetype `raster.Path` instruction stream: the opcode
words 0 (`Start`), 1 (`Add1`), 2 (`Add2`) and 3 (`Add3`) with their
26.6 fixed-point coordinate payloads. -/
inductive PathCmd where
  | start (p : ℤ × ℤ)
  | add1 (p : ℤ × ℤ)
  | add2 (p q : ℤ × ℤ)
  | add3 (p q r : ℤ × ℤ)
deriving DecidableEq, Repr

/-- Inner loop of source `rasterPath` over the tail of one polyline:
`previous` holds the fixed-point image of the preceding input point and is
updated every iteration whether or not the point is emitted; a point is
emitted as `Add1` exactly when `dx + dy > 8` for the componentwise
absolute differences. -/
def rasterGo : ℤ × ℤ → List Vector → List PathCmd
  | _, [] => []
  | previous, point :: rest =>
      let f := point.Fixed
      (if 8 < |f.1 - previous.1| + |f.2 - previous.2| then [PathCmd.add1 f]
       else []) ++ rasterGo f rest

/-- Source `rasterPath`: each polyline opens with `Start` at its first
point's fixed-point image and continues with the filtered `Add1`s. -/
def rasterPath (paths : List (List Vector)) : List PathCmd :=
  paths.foldl
    (fun result path =>
      match path with
      | [] => result
      | point :: rest =>
          result ++ [PathCmd.start point.Fixed] ++ rasterGo point.Fixed rest)
    []

/-- Specification-side companion for C5: keep exactly those consecutive
points whose fixed-point image differs from the preceding point's image
(coalescing duplicates after fixed-point rounding). -/
def dedupGo : ℤ × ℤ → List Vector → List (ℤ × ℤ)
  | _, [] => []
  | previous, point :: rest =>
      let f := point.Fixed
      if f = previous then dedupGo f rest
      else f :: dedupGo f rest

/-- Source `LineCap` constants. -/
inductive LineCap where
  | round
  | butt
  | square
deriving DecidableEq, Repr

/-- Source `LineJoin` constants. -/
inductive LineJoin where
  | round
  | bevel
deriving DecidableEq, Repr

/-- Source `FillRule` constants. -/
inductive FillRule where
  | winding
  | evenOdd
deriving DecidableEq, Repr

/-- Model of an `image.Alpha` clip mask: its bounds size. The pixel
contents play no role in any claim checked here. -/
structure AlphaImg where
  width : ℤ
  height : ℤ
deriving DecidableEq, Repr

/-- Source `Canvas` struct. The `stack` field is `[]*Canvas` in the
source; `Push` appends the receiver pointer `c` itself (not a copy of the
canvas), so every stack entry aliases the canvas and dereferences, at any
later time, to the canvas's then-current value — the model therefore only
records the number of entries. The resource-backed fields (`rasterizer`,
`im`, `clearSrc`, `fillPattern`, `strokePattern`, `fontFace`,
`fontHeight`) are external collaborators and never inspected by the
claims; `color` is kept as an NRGBA quadruple. The source's `start` and
`current` are nil pointers until the first `MoveTo`; they are modelled as
the origin and are only read once `hasCurrent` holds. -/
structure Canvas where
  stack : List Unit
  width : ℤ
  height : ℤ
  mask : Option AlphaImg
  color : ℤ × ℤ × ℤ × ℤ
  strokePath : List PathCmd
  fillPath : List PathCmd
  start : Vector
  current : Vector
  hasCurrent : Bool
  hasBegin : Bool
  dashes : List ℚ
  vertexts : List Vector
  lineWidth : ℚ
  lineCap : LineCap
  lineJoin : LineJoin
  fillRule : FillRule
  matrix : Matrix
deriving DecidableEq, Repr

/-- Source `NewCanvas`/`NewCanvasForRGBA` defaults: line width 1, winding
fill rule, identity transform, no mask, empty paths, transparent color;
the Go zero values give round cap, round join, empty dash list and a
cleared `hasCurrent`. -/
def NewCanvas (width height : ℤ) : Canvas :=
  { stack := []
    width := width
    height := height
    mask := none
    color := (0, 0, 0, 0)
    strokePath := []
    fillPath := []
    start := NewVector 0 0
    current := NewVector 0 0
    hasCurrent := false
    hasBegin := false
    dashes := []
    vertexts := []
    lineWidth := 1
    lineCap := LineCap.round
    lineJoin := LineJoin.round
    fillRule := FillRule.winding
    matrix := Identity }

/-- Source `Canvas.SetDash`. -/
def Canvas.SetDash (c : Canvas) (dashes : List ℚ) : Canvas :=
  { c with dashes := dashes }

/-- Source `Canvas.SetLineWidth`. -/
def Canvas.SetLineWidth (c : Canvas) (lineWidth : ℚ) : Canvas :=
  { c with lineWidth := lineWidth }

/-- Source `Canvas.SetLineCap`. -/
def Canvas.SetLineCap (c : Canvas) (lineCap : LineCap) : Canvas :=
  { c with lineCap := lineCap }

/-- Source `Canvas.SetLineJoin`. -/
def Canvas.SetLineJoin (c : Canvas) (lineJoin : LineJoin) : Canvas :=
  { c with lineJoin := lineJoin }

/-- Source `Canvas.SetFillRule`. -/
def Canvas.SetFillRule (c : Canvas) (fillRule : FillRule) : Canvas :=
  { c with fillRule := fillRule }

/-- Source `Canvas.SetRGBA255` (restricted to the `color` field; the
derived solid fill/stroke patterns are opaque paint resources outside the
model). Go's `uint8(·)` conversion is reduction modulo 256. -/
def Canvas.SetRGBA255 (c : Canvas) (r g b a : ℤ) : Canvas :=
  { c with color := (r % 256, g % 256, b % 256, a % 256) }

/-- Source `Canvas.TransformPoint`. -/
def Canvas.TransformPoint (c : Canvas) (x y : ℚ) : ℚ × ℚ :=
  c.matrix.TransformPoint x y

/-- Source `Canvas.Identity`. -/
def Canvas.Identity (c : Canvas) : Canvas :=
  { c with matrix := Drawlib.Identity }

/-- Source `Canvas.Translate`. -/
def Canvas.Translate (c : Canvas) (x y : ℚ) : Canvas :=
  { c with matrix := c.matrix.Translate x y }

/-- Source `Canvas.Scale`. -/
def Canvas.Scale (c : Canvas) (x y : ℚ) : Canvas :=
  { c with matrix := c.matrix.Scale x y }

/-- Source `Canvas.Rotate`, with the angle's cosine and sine passed
abstractly as in `Matrix.RotateCS`. -/
def Canvas.RotateCS (c : Canvas) (co si : ℚ) : Canvas :=
  { c with matrix := c.matrix.RotateCS co si }

/-- Source `Canvas.Shear`. -/
def Canvas.Shear (c : Canvas) (x y : ℚ) : Canvas :=
  { c with matrix := c.matrix.Shear x y }

/-- Source `Canvas.MoveTo`: if a current point exists, first auto-close
the fill program back to the subpath start; then transform the point,
`Start` both programs there and set the cursor. -/
def Canvas.MoveTo (c : Canvas) (x y : ℚ) : Canvas :=
  let c1 :=
    if c.hasCurrent then
      { c with fillPath := c.fillPath ++ [PathCmd.add1 c.start.Fixed] }
    else c
  let p := c1.TransformPoint x y
  let v := NewVector p.1 p.2
  { c1 with
    strokePath := c1.strokePath ++ [PathCmd.start v.Fixed]
    fillPath := c1.fillPath ++ [PathCmd.start v.Fixed]
    start := v
    current := v
    hasCurrent := true }

/-- Source `Canvas.LineTo`: behaves as `MoveTo` when no current point
exists, otherwise appends `Add1` of the transformed point to both
programs. -/
def Canvas.LineTo (c : Canvas) (x y : ℚ) : Canvas :=
  if c.hasCurrent then
    let p := c.TransformPoint x y
    let v := NewVector p.1 p.2
    { c with
      strokePath := c.strokePath ++ [PathCmd.add1 v.Fixed]
      fillPath := c.fillPath ++ [PathCmd.add1 v.Fixed]
      current := v }
  else c.MoveTo x y

/-- Source `Canvas.QuadraticTo`: implicit `MoveTo` at the first control
point when no current point exists, then `Add2` of the two transformed
points on both programs. -/
def Canvas.QuadraticTo (c : Canvas) (x1 y1 x2 y2 : ℚ) : Canvas :=
  let c1 := if c.hasCurrent then c else c.MoveTo x1 y1
  let p1 := c1.TransformPoint x1 y1
  let p2 := c1.TransformPoint x2 y2
  let v1 := NewVector p1.1 p1.2
  let v2 := NewVector p2.1 p2.2
  { c1 with
    strokePath := c1.strokePath ++ [PathCmd.add2 v1.Fixed v2.Fixed]
    fillPath := c1.fillPath ++ [PathCmd.add2 v1.Fixed v2.Fixed]
    current := v2 }

/-- Loop of source `Canvas.CubicTo` over `points[1:]`: a point whose
fixed-point image equals `previous` is skipped (`continue`); otherwise it
is appended to both programs as `Add1` and becomes both `previous` and the
current point. -/
def cubicAppend : Canvas → ℤ × ℤ → List Vector → Canvas
  | c, _, [] => c
  | c, previous, p :: ps =>
      let f := p.Fixed
      if f = previous then cubicAppend c previous ps
      else
        cubicAppend
          { c with
            strokePath := c.strokePath ++ [PathCmd.add1 f]
            fillPath := c.fillPath ++ [PathCmd.add1 f]
            current := p } f ps

/-- Source `Canvas.CubicTo`: implicit `MoveTo` at the first control point
when no current point exists; the cubic from the (already device-space)
current point through the three transformed control points is flattened
eagerly by `CreateCubicBezier` and appended point by point. -/
def Canvas.CubicTo (c : Canvas) (x1 y1 x2 y2 x3 y3 : ℚ) : Canvas :=
  let c1 := if c.hasCurrent then c else c.MoveTo x1 y1
  let x0 := c1.current.X
  let y0 := c1.current.Y
  let p1 := c1.TransformPoint x1 y1
  let p2 := c1.TransformPoint x2 y2
  let p3 := c1.TransformPoint x3 y3
  let points := CreateCubicBezier x0 y0 p1.1 p1.2 p2.1 p2.2 p3.1 p3.2
  cubicAppend c1 c1.current.Fixed (points.drop 1)

/-- Source `Canvas.ClosePath`: with a current point, `Add1` back to the
subpath start on both programs. -/
def Canvas.ClosePath (c : Canvas) : Canvas :=
  if c.hasCurrent then
    { c with
      strokePath := c.strokePath ++ [PathCmd.add1 c.start.Fixed]
      fillPath := c.fillPath ++ [PathCmd.add1 c.start.Fixed]
      current := c.start }
  else c

/-- Source `Canvas.ClearPath`. -/
def Canvas.ClearPath (c : Canvas) : Canvas :=
  { c with strokePath := [], fillPath := [], hasCurrent := false }

/-- Source `Canvas.NewSubPath`: auto-close the fill program if a current
point exists, then clear `hasCurrent`. -/
def Canvas.NewSubPath (c : Canvas) : Canvas :=
  let c1 :=
    if c.hasCurrent then
      { c with fillPath := c.fillPath ++ [PathCmd.add1 c.start.Fixed] }
    else c
  { c1 with hasCurrent := false }

/-- Source `Canvas.Push`: `c.stack = append(c.stack, c)`. The appended
element is the receiver pointer `c` itself — not a copy of the canvas. -/
def Canvas.Push (c : Canvas) : Canvas :=
  { c with stack := () :: c.stack }

/-- Source `Canvas.Pop`: `before := *c`, `x, s := s[len(s)-1],
s[:len(s)-1]`, `*c = *x`, then `mask`, `strokePath`, `fillPath`, `start`,
`current` and `hasCurrent` are reassigned from `before`. On an empty
stack the indexing `s[len(s)-1]` is a runtime out-of-range panic,
modelled as `none`. On a non-empty stack the top entry `x` is the
receiver pointer itself (see `Canvas.Push`), so `*c = *x` copies the
canvas onto itself — including the `stack` field, which the discarded
truncated local `s` never shortens. -/
def Canvas.Pop (c : Canvas) : Option Canvas :=
  match c.stack with
  | [] => none
  | _ :: _ =>
      let before := c
      let x := c
      some { x with
             mask := before.mask
             strokePath := before.strokePath
             fillPath := before.fillPath
             start := before.start
             current := before.current
             hasCurrent := before.hasCurrent }

/-- Source `Canvas.SetMask`: a mask whose bounds differ from the canvas
image's bounds is rejected with `errors.New("mask size must match context
size")` before any assignment; otherwise the mask is installed. The
result pairs the (possibly updated) canvas with the returned error. -/
def Canvas.SetMask (c : Canvas) (mask : AlphaImg) : Canvas × Option String :=
  if (mask.width, mask.height) ≠ (c.width, c.height) then
    (c, some "mask size must match context size")
  else
    ({ c with mask := some mask }, none)

/-- Modelled from the spec: the fixed-point helper `Unfix` called by
`flattenPath` is not among the provided source files (only its caller
is). Per the spec's data model the path programs store 26.6 fixed-point
device coordinates, so `Unfix` converts fixed to float by dividing by
64. -/
def Unfix (i : ℤ) : ℚ :=
  (i : ℚ) / 64

/-- Source `flattenPath` loop over the instruction stream, carrying the
accumulated polylines, the in-progress polyline and the current point
`(cx, cy)`. Opcode 0 flushes the in-progress polyline and starts a new
one; opcode 1 appends a point; opcodes 2 and 3 expand through the Bézier
flatteners starting at `(cx, cy)`. (The source's `default: panic("bad
path")` is unrepresentable here: `PathCmd` has only the four valid
opcodes.) -/
def flattenGo : List PathCmd → List (List Vector) → List Vector → ℚ → ℚ →
    List (List Vector)
  | [], result, path, _, _ =>
      if 0 < path.length then result ++ [path] else result
  | PathCmd.start p :: rest, result, path, _, _ =>
      let result2 := if 0 < path.length then result ++ [path] else result
      let x := Unfix p.1
      let y := Unfix p.2
      flattenGo rest result2 [NewVector x y] x y
  | PathCmd.add1 p :: rest, result, path, _, _ =>
      let x := Unfix p.1
      let y := Unfix p.2
      flattenGo rest result (path ++ [NewVector x y]) x y
  | PathCmd.add2 p q :: rest, result, path, cx, cy =>
      let x1 := Unfix p.1
      let y1 := Unfix p.2
      let x2 := Unfix q.1
      let y2 := Unfix q.2
      let points := CreateQuadraticBezier cx cy x1 y1 x2 y2
      flattenGo rest result (path ++ points) x2 y2
  | PathCmd.add3 p q r :: rest, result, path, cx, cy =>
      let x1 := Unfix p.1
      let y1 := Unfix p.2
      let x2 := Unfix q.1
      let y2 := Unfix q.2
      let x3 := Unfix r.1
      let y3 := Unfix r.2
      let points := CreateCubicBezier cx cy x1 y1 x2 y2 x3 y3
      flattenGo rest result (path ++ points) x3 y3

/-- Source `flattenPath`. -/
def flattenPath (p : List PathCmd) : List (List Vector) :=
  flattenGo p [] [] 0 0

/-- The parameters a `stroke`/`fill` call hands to the shared
`raster.Rasterizer` before `Rasterize(painter)`: the winding-rule flag
assigned to `r.UseNonZeroWinding` and the path fed to
`AddStroke`/`AddPath`. The painter, stroke width, capper and joiner are
paint-side resources outside the model. -/
structure RasterJob where
  useNonZeroWinding : Bool
  path : List PathCmd
deriving DecidableEq, Repr

/-- Source `Canvas.stroke`: dash the flattened stroke program when a dash
pattern is set, re-encode with `rasterPath`, and rasterize with
`UseNonZeroWinding = true` unconditionally. -/
def Canvas.stroke (c : Canvas) : RasterJob :=
  let path :=
    if 0 < c.dashes.length then
      rasterPath (dashPath (flattenPath c.strokePath) c.dashes)
    else
      rasterPath (flattenPath c.strokePath)
  { useNonZeroWinding := true, path := path }

/-- Source `Canvas.fill`: auto-close an open subpath on a copy of the
fill program, and rasterize with `UseNonZeroWinding = (fillRule ==
FillRuleWinding)`. -/
def Canvas.fill (c : Canvas) : RasterJob :=
  let path :=
    if c.hasCurrent then c.fillPath ++ [PathCmd.add1 c.start.Fixed]
    else c.fillPath
  { useNonZeroWinding := decide (c.fillRule = FillRule.winding), path := path }

/-- C10's grid predicate on one fixed-point coordinate pair: both
components are whole-pixel multiples of 64. -/
def GridPoint (p : ℤ × ℤ) : Prop :=
  (64 : ℤ) ∣ p.1 ∧ (64 : ℤ) ∣ p.2

/-- C10's grid predicate on a path command: every coordinate pair in the
command lies on the whole-pixel grid. -/
def GridCmd : PathCmd → Prop
  | PathCmd.start p => GridPoint p
  | PathCmd.add1 p => GridPoint p
  | PathCmd.add2 p q => GridPoint p ∧ GridPoint q
  | PathCmd.add3 p q r => GridPoint p ∧ GridPoint q ∧ GridPoint r

/-- C10's invariant on a canvas: every command of both the fill and the
stroke path program lies on the whole-pixel grid. -/
def GridCanvas (c : Canvas) : Prop :=
  (∀ cmd ∈ c.fillPath, GridCmd cmd) ∧ (∀ cmd ∈ c.strokePath, GridCmd cmd)

/-- C4: the convenience operations on an existing matrix `m` compute
`primitive.Multiply(m)`, and `Multiply` composes so that `m1.Multiply m2`
transforms a point by `m1` first and then `m2` — hence the new primitive
acts in the pre-existing local frame. In particular
`Identity().Translate(10,0).Rotate(π/2)` maps `(0,0)` to exactly `(10,0)`,
for any values of the rotation's cosine and sine (so the fact is exact
even under `float64` evaluation of `cos(π/2)` and `sin(π/2)`). -/
theorem matrix_convenience_premultiplies :
    (∀ m1 m2 : Matrix, ∀ x y : ℚ,
      (m1.Multiply m2).TransformPoint x y =
        (fun p : ℚ × ℚ => m2.TransformPoint p.1 p.2) (m1.TransformPoint x y)) ∧
    (∀ m : Matrix, ∀ x y : ℚ, m.Translate x y = (Translate x y).Multiply m) ∧
    (∀ m : Matrix, ∀ x y : ℚ, m.Scale x y = (Scale x y).Multiply m) ∧
    (∀ m : Matrix, ∀ c s : ℚ, m.RotateCS c s = (RotateCS c s).Multiply m) ∧
    (∀ m : Matrix, ∀ x y : ℚ, m.Shear x y = (Shear x y).Multiply m) ∧
    (∀ c s : ℚ,
      ((Identity.Translate 10 0).RotateCS c s).TransformPoint 0 0 = (10, 0)) := by
  refine ⟨?_, ?_, ?_, ?_, ?_, ?_⟩
  · intro m1 m2 x y
    simp only [Matrix.Multiply, Matrix.TransformPoint, Prod.mk.injEq]
    exact ⟨by ring, by ring⟩
  · intro m x y; rfl
  · intro m x y; rfl
  · intro m c s; rfl
  · intro m x y; rfl
  · intro c s
    simp only [Matrix.Translate, Matrix.RotateCS, Matrix.Multiply, Identity,
      Translate, RotateCS, Matrix.TransformPoint]
    norm_num

lemma goInt_of_nonneg {q : ℚ} (h : 0 ≤ q) : goInt q = ⌊q⌋ := by
  simp [goInt, h]

lemma ite_min4 (n : ℤ) : (if n < 4 then 4 else n) = max 4 n := by
  rcases lt_or_le n 4 with h | h
  · rw [if_pos h, max_eq_left (le_of_lt h)]
  · rw [if_neg (not_lt.mpr h), max_eq_right h]

lemma goHypot_nonneg (dx dy : ℚ) : 0 ≤ goHypot dx dy :=
  Rat.sqrt_nonneg _

lemma quadLen_nonneg (x0 y0 x1 y1 x2 y2 : ℚ) : 0 ≤ quadLen x0 y0 x1 y1 x2 y2 :=
  add_nonneg (goHypot_nonneg _ _) (goHypot_nonneg _ _)

lemma cubicLen_nonneg (x0 y0 x1 y1 x2 y2 x3 y3 : ℚ) :
    0 ≤ cubicLen x0 y0 x1 y1 x2 y2 x3 y3 :=
  add_nonneg (add_nonneg (goHypot_nonneg _ _) (goHypot_nonneg _ _))
    (goHypot_nonneg _ _)

lemma quadN_eq_max (x0 y0 x1 y1 x2 y2 : ℚ) :
    quadN x0 y0 x1 y1 x2 y2 = max 4 ⌊quadLen x0 y0 x1 y1 x2 y2 + 1/2⌋ := by
  have h : (0 : ℚ) ≤ quadLen x0 y0 x1 y1 x2 y2 + 1/2 := by
    linarith [quadLen_nonneg x0 y0 x1 y1 x2 y2]
  simp only [quadN, goInt_of_nonneg h, ite_min4]

lemma cubicN_eq_max (x0 y0 x1 y1 x2 y2 x3 y3 : ℚ) :
    cubicN x0 y0 x1 y1 x2 y2 x3 y3 =
      max 4 ⌊cubicLen x0 y0 x1 y1 x2 y2 x3 y3 + 1/2⌋ := by
  have h : (0 : ℚ) ≤ cubicLen x0 y0 x1 y1 x2 y2 x3 y3 + 1/2 := by
    linarith [cubicLen_nonneg x0 y0 x1 y1 x2 y2 x3 y3]
  simp only [cubicN, goInt_of_nonneg h, ite_min4]

lemma quadN_ge_four (x0 y0 x1 y1 x2 y2 : ℚ) : 4 ≤ quadN x0 y0 x1 y1 x2 y2 := by
  rw [quadN_eq_max]; exact le_max_left _ _

lemma cubicN_ge_four (x0 y0 x1 y1 x2 y2 x3 y3 : ℚ) :
    4 ≤ cubicN x0 y0 x1 y1 x2 y2 x3 y3 := by
  rw [cubicN_eq_max]; exact le_max_left _ _

lemma getElem_map_range {α : Type} (f : ℕ → α) {m i : ℕ} (h : i < m) :
    ((List.range m).map f)[i]? = some (f i) := by
  simp [List.getElem?_map, List.getElem?_range, h]

lemma quadPoint_zero (x0 y0 x1 y1 x2 y2 d : ℚ) :
    quadPoint x0 y0 x1 y1 x2 y2 d 0 = ⟨x0, y0⟩ := by
  simp [quadPoint]

lemma quadPoint_last (x0 y0 x1 y1 x2 y2 d : ℚ) (i : ℕ) (hd : d ≠ 0)
    (hi : (i : ℚ) = d) : quadPoint x0 y0 x1 y1 x2 y2 d i = ⟨x2, y2⟩ := by
  simp only [quadPoint, hi, div_self hd]
  norm_num

lemma cubicPoint_zero (x0 y0 x1 y1 x2 y2 x3 y3 dd : ℚ) :
    cubicPoint x0 y0 x1 y1 x2 y2 x3 y3 dd 0 = ⟨x0, y0⟩ := by
  simp [cubicPoint]

lemma cubicPoint_last (x0 y0 x1 y1 x2 y2 x3 y3 dd : ℚ) (i : ℕ) (hd : dd ≠ 0)
    (hi : (i : ℚ) = dd) : cubicPoint x0 y0 x1 y1 x2 y2 x3 y3 dd i = ⟨x3, y3⟩ := by
  simp only [cubicPoint, hi, div_self hd]
  norm_num

lemma toNat_cast_sub_one {n : ℤ} (h : 4 ≤ n) :
    ((n.toNat - 1 : ℕ) : ℚ) = (n : ℚ) - 1 := by
  have h1 : (1 : ℕ) ≤ n.toNat := by omega
  rw [Nat.cast_sub h1]
  have h2 : ((n.toNat : ℕ) : ℚ) = (n : ℚ) := by
    rw [← Int.toNat_of_nonneg (by omega : (0 : ℤ) ≤ n)]
    push_cast
    rfl
  rw [h2, Nat.cast_one]

/-- C9: for every quadratic and cubic Bézier, flattening produces exactly
`n = max 4 ⌊l + 1/2⌋` points where `l` is the sum of consecutive
control-polygon segment lengths (`int(l + 0.5)` is round-half-up for the
nonnegative `l`, floored at a minimum of 4), the `i`-th point is the
Bernstein evaluation at the uniform parameter `t = i/(n-1)`, the first
point is the curve's start point and the last its end point. -/
theorem bezier_flatten_count_endpoints :
    ∀ x0 y0 x1 y1 x2 y2 x3 y3 : ℚ,
      (quadN x0 y0 x1 y1 x2 y2 = max 4 ⌊quadLen x0 y0 x1 y1 x2 y2 + 1/2⌋) ∧
      (CreateQuadraticBezier x0 y0 x1 y1 x2 y2 =
        (List.range (quadN x0 y0 x1 y1 x2 y2).toNat).map
          (quadPoint x0 y0 x1 y1 x2 y2 ((quadN x0 y0 x1 y1 x2 y2 : ℚ) - 1))) ∧
      ((CreateQuadraticBezier x0 y0 x1 y1 x2 y2).length =
        (quadN x0 y0 x1 y1 x2 y2).toNat) ∧
      ((CreateQuadraticBezier x0 y0 x1 y1 x2 y2)[0]? = some ⟨x0, y0⟩) ∧
      ((CreateQuadraticBezier x0 y0 x1 y1 x2 y2)[(quadN x0 y0 x1 y1 x2 y2).toNat - 1]? =
        some ⟨x2, y2⟩) ∧
      (cubicN x0 y0 x1 y1 x2 y2 x3 y3 =
        max 4 ⌊cubicLen x0 y0 x1 y1 x2 y2 x3 y3 + 1/2⌋) ∧
      (CreateCubicBezier x0 y0 x1 y1 x2 y2 x3 y3 =
        (List.range (cubicN x0 y0 x1 y1 x2 y2 x3 y3).toNat).map
          (cubicPoint x0 y0 x1 y1 x2 y2 x3 y3
            ((cubicN x0 y0 x1 y1 x2 y2 x3 y3 : ℚ) - 1))) ∧
      ((CreateCubicBezier x0 y0 x1 y1 x2 y2 x3 y3).length =
        (cubicN x0 y0 x1 y1 x2 y2 x3 y3).toNat) ∧
      ((CreateCubicBezier x0 y0 x1 y1 x2 y2 x3 y3)[0]? = some ⟨x0, y0⟩) ∧
      ((CreateCubicBezier x0 y0 x1 y1 x2 y2 x3 y3)[(cubicN x0 y0 x1 y1 x2 y2 x3 y3).toNat - 1]? =
        some ⟨x3, y3⟩) := by
  intro x0 y0 x1 y1 x2 y2 x3 y3
  have hq4 : 4 ≤ quadN x0 y0 x1 y1 x2 y2 := quadN_ge_four x0 y0 x1 y1 x2 y2
  have hc4 : 4 ≤ cubicN x0 y0 x1 y1 x2 y2 x3 y3 :=
    cubicN_ge_four x0 y0 x1 y1 x2 y2 x3 y3
  have hqm : 4 ≤ (quadN x0 y0 x1 y1 x2 y2).toNat := by omega
  have hcm : 4 ≤ (cubicN x0 y0 x1 y1 x2 y2 x3 y3).toNat := by omega
  have hqd : ((quadN x0 y0 x1 y1 x2 y2 : ℚ) - 1) ≠ 0 := by
    have : (4 : ℚ) ≤ (quadN x0 y0 x1 y1 x2 y2 : ℚ) := by exact_mod_cast hq4
    linarith
  have hcd : ((cubicN x0 y0 x1 y1 x2 y2 x3 y3 : ℚ) - 1) ≠ 0 := by
    have : (4 : ℚ) ≤ (cubicN x0 y0 x1 y1 x2 y2 x3 y3 : ℚ) := by exact_mod_cast hc4
    linarith
  refine ⟨quadN_eq_max x0 y0 x1 y1 x2 y2, rfl, ?_, ?_, ?_,
    cubicN_eq_max x0 y0 x1 y1 x2 y2 x3 y3, rfl, ?_, ?_, ?_⟩
  · simp [CreateQuadraticBezier]
  · rw [show CreateQuadraticBezier x0 y0 x1 y1 x2 y2 =
      (List.range (quadN x0 y0 x1 y1 x2 y2).toNat).map
        (quadPoint x0 y0 x1 y1 x2 y2 ((quadN x0 y0 x1 y1 x2 y2 : ℚ) - 1)) from rfl,
      getElem_map_range _ (by omega), quadPoint_zero]
  · rw [show CreateQuadraticBezier x0 y0 x1 y1 x2 y2 =
      (List.range (quadN x0 y0 x1 y1 x2 y2).toNat).map
        (quadPoint x0 y0 x1 y1 x2 y2 ((quadN x0 y0 x1 y1 x2 y2 : ℚ) - 1)) from rfl,
      getElem_map_range _ (by omega),
      quadPoint_last _ _ _ _ _ _ _ _ hqd (toNat_cast_sub_one hq4)]
  · simp [CreateCubicBezier]
  · rw [show CreateCubicBezier x0 y0 x1 y1 x2 y2 x3 y3 =
      (List.range (cubicN x0 y0 x1 y1 x2 y2 x3 y3).toNat).map
        (cubicPoint x0 y0 x1 y1 x2 y2 x3 y3
          ((cubicN x0 y0 x1 y1 x2 y2 x3 y3 : ℚ) - 1)) from rfl,
      getElem_map_range _ (by omega), cubicPoint_zero]
  · rw [show CreateCubicBezier x0 y0 x1 y1 x2 y2 x3 y3 =
      (List.range (cubicN x0 y0 x1 y1 x2 y2 x3 y3).toNat).map
        (cubicPoint x0 y0 x1 y1 x2 y2 x3 y3
          ((cubicN x0 y0 x1 y1 x2 y2 x3 y3 : ℚ) - 1)) from rfl,
      getElem_map_range _ (by omega),
      cubicPoint_last _ _ _ _ _ _ _ _ _ _ hcd (toNat_cast_sub_one hc4)]

lemma goSqrt_sq {q : ℚ} (h : 0 ≤ q) : goSqrt (q * q) = q := by
  rw [goSqrt, Rat.sqrt_eq, abs_of_nonneg h]

lemma goSqrt_256 : goSqrt 256 = 16 := by
  rw [show (256 : ℚ) = 16 * 16 by norm_num, goSqrt_sq (by norm_num)]

lemma goSqrt_121 : goSqrt 121 = 11 := by
  rw [show (121 : ℚ) = 11 * 11 by norm_num, goSqrt_sq (by norm_num)]

lemma goSqrt_64 : goSqrt 64 = 8 := by
  rw [show (64 : ℚ) = 8 * 8 by norm_num, goSqrt_sq (by norm_num)]

lemma goSqrt_9 : goSqrt 9 = 3 := by
  rw [show (9 : ℚ) = 3 * 3 by norm_num, goSqrt_sq (by norm_num)]

/-- C3, counterexample: dashing the straight 16-unit polyline from (0,0)
to (16,0) with pattern [5, 3] does not emit three "on" segments as the
claim states — only two are emitted (the trailing run [13,16] falls on
the odd "off" entry and is discarded). -/
theorem dash_16_claim_false :
    ¬ ((dashPath [[NewVector 0 0, NewVector 16 0]] [5, 3]).length = 3) := by
  have hne : ([5, 3] : List ℚ) ≠ [] := by simp
  norm_num [dashPath, hne, dashLoop, dashFuel, Vector.Distance,
    Vector.Interpolate, NewVector, goSqrt_256, goSqrt_121, goSqrt_64, goSqrt_9]

/-- C3, amended: dashing the straight 16-unit polyline from (0,0) to
(16,0) with pattern [5, 3] emits exactly the two "on" segments [0,5] and
[8,13] (each of length 5), with cut points at 5, 8 and 13; the final run
[13,16] lands on the odd ("off") pattern entry and is not emitted. -/
theorem dash_16_segments :
    dashPath [[NewVector 0 0, NewVector 16 0]] [5, 3] =
      [[NewVector 0 0, NewVector 5 0], [NewVector 8 0, NewVector 13 0]] := by
  have hne : ([5, 3] : List ℚ) ≠ [] := by simp
  norm_num [dashPath, hne, dashLoop, dashFuel, Vector.Distance,
    Vector.Interpolate, NewVector, goSqrt_256, goSqrt_121, goSqrt_64, goSqrt_9]

lemma fixed_dvd (v : Vector) : 64 ∣ v.Fixed.1 ∧ 64 ∣ v.Fixed.2 :=
  ⟨dvd_mul_left 64 (goInt v.X), dvd_mul_left 64 (goInt v.Y)⟩

lemma fixed_apart {a b : ℤ × ℤ} (ha1 : (64 : ℤ) ∣ a.1) (ha2 : (64 : ℤ) ∣ a.2)
    (hb1 : (64 : ℤ) ∣ b.1) (hb2 : (64 : ℤ) ∣ b.2) (hne : a ≠ b) :
    8 < |a.1 - b.1| + |a.2 - b.2| := by
  have hd1 : (64 : ℤ) ∣ a.1 - b.1 := dvd_sub ha1 hb1
  have hd2 : (64 : ℤ) ∣ a.2 - b.2 := dvd_sub ha2 hb2
  rcases eq_or_ne a.1 b.1 with h1 | h1
  · have h2 : a.2 ≠ b.2 := by
      intro h2
      exact hne (Prod.ext h1 h2)
    have hpos : 0 < |a.2 - b.2| := abs_pos.mpr (sub_ne_zero.mpr h2)
    have h64 : (64 : ℤ) ≤ |a.2 - b.2| :=
      Int.le_of_dvd hpos ((dvd_abs 64 _).mpr hd2)
    have := abs_nonneg (a.1 - b.1)
    linarith
  · have hpos : 0 < |a.1 - b.1| := abs_pos.mpr (sub_ne_zero.mpr h1)
    have h64 : (64 : ℤ) ≤ |a.1 - b.1| :=
      Int.le_of_dvd hpos ((dvd_abs 64 _).mpr hd1)
    have := abs_nonneg (a.2 - b.2)
    linarith

lemma rasterGo_eq_dedup (prev : ℤ × ℤ) (h1 : (64 : ℤ) ∣ prev.1)
    (h2 : (64 : ℤ) ∣ prev.2) (qs : List Vector) :
    rasterGo prev qs = (dedupGo prev qs).map PathCmd.add1 := by
  induction qs generalizing prev with
  | nil => rfl
  | cons q rest ih =>
      rcases fixed_dvd q with ⟨hf1, hf2⟩
      rcases eq_or_ne q.Fixed prev with heq | hne
      · rw [rasterGo, dedupGo]
        simp only [heq, sub_self, abs_zero, add_zero]
        rw [if_neg (by norm_num)]
        simpa using ih prev h1 h2
      · rw [rasterGo, dedupGo]
        rw [if_pos (fixed_apart hf1 hf2 h1 h2 hne), if_neg hne]
        simp only [List.map_cons, List.singleton_append, List.cons_inj_right]
        exact ih q.Fixed hf1 hf2

/-- C5: converting flattened polylines back into a rasterizer path
coalesces exactly the consecutive points that are duplicates after
fixed-point rounding. Concretely: the emission test `dx + dy > 8` (in 26.6
units) succeeds precisely when the two fixed-point images differ — every
`Vector.Fixed` coordinate is a multiple of 64, so a nonzero difference is
at least 64 > 8 — and hence the emitted commands for a polyline are
`Start` at the first point followed by `Add1` at exactly the
rounding-distinct consecutive points. -/
theorem rasterPath_coalesces_only_duplicates :
    (∀ v w : Vector,
      (8 < |w.Fixed.1 - v.Fixed.1| + |w.Fixed.2 - v.Fixed.2|) ↔
        w.Fixed ≠ v.Fixed) ∧
    (∀ (v : Vector) (qs : List Vector),
      rasterGo v.Fixed qs = (dedupGo v.Fixed qs).map PathCmd.add1) ∧
    (∀ (v : Vector) (qs : List Vector),
      rasterPath [v :: qs] =
        PathCmd.start v.Fixed :: (dedupGo v.Fixed qs).map PathCmd.add1) := by
  refine ⟨?_, ?_, ?_⟩
  · intro v w
    constructor
    · intro h heq
      rw [heq] at h
      simp at h
    · intro hne
      rcases fixed_dvd v with ⟨hv1, hv2⟩
      rcases fixed_dvd w with ⟨hw1, hw2⟩
      exact fixed_apart hw1 hw2 hv1 hv2 hne
  · intro v qs
    rcases fixed_dvd v with ⟨hv1, hv2⟩
    exact rasterGo_eq_dedup v.Fixed hv1 hv2 qs
  · intro v qs
    rcases fixed_dvd v with ⟨hv1, hv2⟩
    rw [rasterPath]
    simp only [List.foldl_cons, List.foldl_nil, List.nil_append,
      List.singleton_append]
    rw [rasterGo_eq_dedup v.Fixed hv1 hv2 qs]

lemma pop_nonempty_eq (c : Canvas) (h : c.stack ≠ []) : c.Pop = some c := by
  obtain ⟨a, t, hs⟩ : ∃ a t, c.stack = a :: t := by
    cases hc : c.stack with
    | nil => exact absurd hc h
    | cons a t => exact ⟨a, t, rfl⟩
  rw [Canvas.Pop, hs]

/-- C1, counterexample: `Push; SetLineWidth 2; Pop` leaves the line width
at 2 even though it was 1 just before the `Push` — `Pop` does not restore
the style captured at `Push`, because `Push` saved an alias of the canvas
rather than a value snapshot. -/
theorem push_mutate_pop_not_restored :
    (((NewCanvas 10 10).Push.SetLineWidth 2).Pop).map Canvas.lineWidth =
      some 2 ∧
    (NewCanvas 10 10).lineWidth = 1 := by
  constructor
  · rw [pop_nonempty_eq _ (by simp [NewCanvas, Canvas.Push, Canvas.SetLineWidth])]
    rfl
  · rfl

/-- C1, amended: `Push` pushes the receiver pointer itself (capture by
reference, not by value), so every mutation between `Push` and `Pop` also
mutates the saved entry; consequently `Pop` on a canvas with a non-empty
stack restores nothing at all — it returns the canvas exactly as it stood
immediately before the `Pop` (style, transform, clip and even the
un-shortened stack included), not as it stood before the `Push`. -/
theorem pop_returns_prepop_state (c : Canvas) (h : c.stack ≠ []) :
    c.Pop = some c :=
  pop_nonempty_eq c h

/-- Witness for `pop_returns_prepop_state` at a concrete canvas. -/
theorem pop_returns_prepop_state_witness :
    (NewCanvas 10 10).Push.Pop = some ((NewCanvas 10 10).Push) :=
  pop_returns_prepop_state ((NewCanvas 10 10).Push)
    (by simp [NewCanvas, Canvas.Push])

/-- C2, counterexample: `Push; MoveTo 3 4; Pop` leaves `hasCurrent` true
even though it was false at the matching `Push` — `Pop` does not rewind
the path cursor state to its value at `Push`; it keeps the pre-`Pop`
values (the source reassigns `mask`, the path programs, `start`,
`current` and `hasCurrent` from `before`, the canvas as it stood just
before the `Pop`). -/
theorem pop_cursor_not_rewound :
    ((((NewCanvas 10 10).Push).MoveTo 3 4).Pop).map Canvas.hasCurrent =
      some true ∧
    (NewCanvas 10 10).hasCurrent = false := by
  constructor
  · rw [pop_nonempty_eq _ (by simp [NewCanvas, Canvas.Push, Canvas.MoveTo])]
    simp [Canvas.MoveTo, NewCanvas, Canvas.Push]
  · rfl

/-- C2, amended: on a non-empty stack, `Pop` leaves the clip mask, the
emitted fill and stroke path programs, the path cursor (`start` and
`current`) and the `hasCurrent` flag all at their pre-`Pop` values: the
source carries them over from `before` instead of the popped entry (and
since `Push` stores an alias, every other field equals its pre-`Pop`
value as well). The claim's "restored to their values at the matching
Push" holds for none of them. -/
theorem pop_keeps_prepop_mask_cursor_paths (c : Canvas) (h : c.stack ≠ []) :
    c.Pop.map Canvas.mask = some c.mask ∧
    c.Pop.map Canvas.strokePath = some c.strokePath ∧
    c.Pop.map Canvas.fillPath = some c.fillPath ∧
    c.Pop.map Canvas.start = some c.start ∧
    c.Pop.map Canvas.current = some c.current ∧
    c.Pop.map Canvas.hasCurrent = some c.hasCurrent := by
  rw [pop_nonempty_eq c h]
  exact ⟨rfl, rfl, rfl, rfl, rfl, rfl⟩

/-- Witness for `pop_keeps_prepop_mask_cursor_paths` at a concrete
canvas. -/
theorem pop_keeps_prepop_mask_cursor_paths_witness :
    ((NewCanvas 10 10).Push.Pop.map Canvas.mask) =
      some ((NewCanvas 10 10).Push.mask) :=
  (pop_keeps_prepop_mask_cursor_paths ((NewCanvas 10 10).Push)
    (by simp [NewCanvas, Canvas.Push])).1

/-- C7: `Pop` on a canvas whose state stack is empty fails loudly — the
source indexes `s[len(s)-1]` on an empty slice, a runtime out-of-range
panic surfaced immediately to the caller (modelled as `none`); it is not
a silent no-op returning a usable canvas. -/
theorem pop_empty_stack_fails (c : Canvas) (h : c.stack = []) :
    c.Pop = none := by
  simp [Canvas.Pop, h]

/-- Witness for `pop_empty_stack_fails`: a fresh canvas has an empty
stack. -/
theorem pop_empty_stack_fails_witness : (NewCanvas 10 10).Pop = none :=
  pop_empty_stack_fails (NewCanvas 10 10) rfl

/-- C8: `SetMask` with an alpha mask whose bounds differ from the
canvas's rejects with the explicit error "mask size must match context
size" and leaves the canvas — in particular its active clip mask —
unchanged; with matching bounds it succeeds (no error) and installs the
mask. -/
theorem setmask_size_checked (c : Canvas) (m : AlphaImg) :
    ((m.width, m.height) ≠ (c.width, c.height) →
      c.SetMask m = (c, some "mask size must match context size") ∧
      (c.SetMask m).1.mask = c.mask) ∧
    ((m.width, m.height) = (c.width, c.height) →
      c.SetMask m = ({ c with mask := some m }, none)) := by
  constructor
  · intro hne
    rw [Canvas.SetMask, if_pos hne]
    exact ⟨rfl, rfl⟩
  · intro heq
    rw [Canvas.SetMask, if_neg (by simp [heq])]

/-- Witness for `setmask_size_checked`: both branches at concrete
canvases and masks. -/
theorem setmask_size_checked_witness :
    (NewCanvas 10 10).SetMask ⟨5, 5⟩ =
      (NewCanvas 10 10, some "mask size must match context size") ∧
    ((NewCanvas 10 10).SetMask ⟨10, 10⟩).2 = none := by
  constructor
  · exact ((setmask_size_checked (NewCanvas 10 10) ⟨5, 5⟩).1
      (by simp [NewCanvas])).1
  · rw [(setmask_size_checked (NewCanvas 10 10) ⟨10, 10⟩).2 rfl]

/-- C6: for every canvas state, `stroke` hands the rasterizer
`UseNonZeroWinding = true` regardless of the configured fill rule, while
`fill` hands it `true` exactly when the configured fill rule is
winding (and `false`, i.e. even-odd coverage, otherwise). -/
theorem stroke_always_winding_fill_follows_rule (c : Canvas) :
    c.stroke.useNonZeroWinding = true ∧
    (c.fill.useNonZeroWinding = true ↔ c.fillRule = FillRule.winding) := by
  constructor
  · rfl
  · simp [Canvas.fill]

lemma gridPoint_fixed (v : Vector) : GridPoint v.Fixed :=
  ⟨dvd_mul_left 64 (goInt v.X), dvd_mul_left 64 (goInt v.Y)⟩

lemma gridCmd_start (v : Vector) : GridCmd (PathCmd.start v.Fixed) :=
  gridPoint_fixed v

lemma gridCmd_add1 (v : Vector) : GridCmd (PathCmd.add1 v.Fixed) :=
  gridPoint_fixed v

lemma gridCmd_add2 (v w : Vector) : GridCmd (PathCmd.add2 v.Fixed w.Fixed) :=
  ⟨gridPoint_fixed v, gridPoint_fixed w⟩

lemma gridList_append {l : List PathCmd} {cmd : PathCmd}
    (hl : ∀ x ∈ l, GridCmd x) (hc : GridCmd cmd) :
    ∀ x ∈ l ++ [cmd], GridCmd x := by
  intro x hx
  rcases List.mem_append.mp hx with h | h
  · exact hl x h
  · exact (List.mem_singleton.mp h) ▸ hc

lemma gridCanvas_moveTo {c : Canvas} (hg : GridCanvas c) (x y : ℚ) :
    GridCanvas (c.MoveTo x y) := by
  rcases hg with ⟨hf, hs⟩
  rw [Canvas.MoveTo]
  by_cases h : c.hasCurrent = true
  · rw [if_pos h]
    exact ⟨gridList_append (gridList_append hf (gridCmd_add1 _))
      (gridCmd_start _), gridList_append hs (gridCmd_start _)⟩
  · rw [if_neg h]
    exact ⟨gridList_append hf (gridCmd_start _),
      gridList_append hs (gridCmd_start _)⟩

lemma gridCanvas_lineTo {c : Canvas} (hg : GridCanvas c) (x y : ℚ) :
    GridCanvas (c.LineTo x y) := by
  rw [Canvas.LineTo]
  by_cases h : c.hasCurrent = true
  · rw [if_pos h]
    rcases hg with ⟨hf, hs⟩
    exact ⟨gridList_append hf (gridCmd_add1 _),
      gridList_append hs (gridCmd_add1 _)⟩
  · rw [if_neg h]
    exact gridCanvas_moveTo hg x y

lemma gridCanvas_quadraticTo {c : Canvas} (hg : GridCanvas c)
    (x1 y1 x2 y2 : ℚ) : GridCanvas (c.QuadraticTo x1 y1 x2 y2) := by
  rw [Canvas.QuadraticTo]
  by_cases h : c.hasCurrent = true
  · rcases hg with ⟨hf, hs⟩
    rw [if_pos h]
    exact ⟨gridList_append hf (gridCmd_add2 _ _),
      gridList_append hs (gridCmd_add2 _ _)⟩
  · rw [if_neg h]
    rcases gridCanvas_moveTo hg x1 y1 with ⟨hf, hs⟩
    exact ⟨gridList_append hf (gridCmd_add2 _ _),
      gridList_append hs (gridCmd_add2 _ _)⟩

lemma gridCanvas_cubicAppend {c : Canvas} (hg : GridCanvas c)
    (prev : ℤ × ℤ) (ps : List Vector) : GridCanvas (cubicAppend c prev ps) := by
  induction ps generalizing c prev with
  | nil => exact hg
  | cons p rest ih =>
      rw [cubicAppend]
      by_cases h : p.Fixed = prev
      · rw [if_pos h]
        exact ih hg _
      · rw [if_neg h]
        rcases hg with ⟨hf, hs⟩
        exact ih ⟨gridList_append hf (gridCmd_add1 _),
          gridList_append hs (gridCmd_add1 _)⟩ _

lemma gridCanvas_cubicTo {c : Canvas} (hg : GridCanvas c)
    (x1 y1 x2 y2 x3 y3 : ℚ) : GridCanvas (c.CubicTo x1 y1 x2 y2 x3 y3) := by
  rw [Canvas.CubicTo]
  by_cases h : c.hasCurrent = true
  · rw [if_pos h]
    exact gridCanvas_cubicAppend hg _ _
  · rw [if_neg h]
    exact gridCanvas_cubicAppend (gridCanvas_moveTo hg x1 y1) _ _

lemma gridCanvas_closePath {c : Canvas} (hg : GridCanvas c) :
    GridCanvas c.ClosePath := by
  rw [Canvas.ClosePath]
  by_cases h : c.hasCurrent = true
  · rw [if_pos h]
    rcases hg with ⟨hf, hs⟩
    exact ⟨gridList_append hf (gridCmd_add1 _),
      gridList_append hs (gridCmd_add1 _)⟩
  · rw [if_neg h]
    exact hg

lemma gridCanvas_newSubPath {c : Canvas} (hg : GridCanvas c) :
    GridCanvas c.NewSubPath := by
  rw [Canvas.NewSubPath]
  by_cases h : c.hasCurrent = true
  · rw [if_pos h]
    rcases hg with ⟨hf, hs⟩
    exact ⟨gridList_append hf (gridCmd_add1 _), hs⟩
  · rw [if_neg h]
    exact hg

/-- C10: every coordinate appended to the fill and stroke path programs
lies on the whole-pixel grid. `Vector.Fixed` truncates each coordinate
toward zero to an integer and scales by 64 (the 26.6 encoding of a whole
pixel), so it always produces multiples of 64; a fresh canvas satisfies
the grid invariant, and each path-building operation (`MoveTo`, `LineTo`,
`QuadraticTo`, `CubicTo`, `ClosePath`, `NewSubPath`) preserves it, since
every appended coordinate is an output of `Vector.Fixed`. -/
theorem path_programs_whole_pixel :
    (∀ v : Vector,
      v.Fixed = (goInt v.X * 64, goInt v.Y * 64) ∧ GridPoint v.Fixed) ∧
    (∀ w h : ℤ, GridCanvas (NewCanvas w h)) ∧
    (∀ (c : Canvas) (x y : ℚ), GridCanvas c → GridCanvas (c.MoveTo x y)) ∧
    (∀ (c : Canvas) (x y : ℚ), GridCanvas c → GridCanvas (c.LineTo x y)) ∧
    (∀ (c : Canvas) (x1 y1 x2 y2 : ℚ), GridCanvas c →
      GridCanvas (c.QuadraticTo x1 y1 x2 y2)) ∧
    (∀ (c : Canvas) (x1 y1 x2 y2 x3 y3 : ℚ), GridCanvas c →
      GridCanvas (c.CubicTo x1 y1 x2 y2 x3 y3)) ∧
    (∀ c : Canvas, GridCanvas c → GridCanvas c.ClosePath) ∧
    (∀ c : Canvas, GridCanvas c → GridCanvas c.NewSubPath) := by
  refine ⟨fun v => ⟨rfl, gridPoint_fixed v⟩, ?_, ?_, ?_, ?_, ?_, ?_, ?_⟩
  · intro w h
    exact ⟨by simp [NewCanvas], by simp [NewCanvas]⟩
  · exact fun c x y hg => gridCanvas_moveTo hg x y
  · exact fun c x y hg => gridCanvas_lineTo hg x y
  · exact fun c x1 y1 x2 y2 hg => gridCanvas_quadraticTo hg x1 y1 x2 y2
  · exact fun c x1 y1 x2 y2 x3 y3 hg => gridCanvas_cubicTo hg x1 y1 x2 y2 x3 y3
  · exact fun c hg => gridCanvas_closePath hg
  · exact fun c hg => gridCanvas_newSubPath hg

/-- Witness for `path_programs_whole_pixel`: the invariant holds for a
fresh canvas and is carried through a concrete `MoveTo` at a fractional
user-space point. -/
theorem path_programs_whole_pixel_witness :
    GridCanvas ((NewCanvas 4 4).MoveTo (1/2) (3/2)) :=
  path_programs_whole_pixel.2.2.1 (NewCanvas 4 4) (1/2) (3/2)
    (path_programs_whole_pixel.2.1 4 4)

end Drawlib
